import Mathlib

/-!
# climex: `inst/climex_app/js/loadingGif.js`

A shallow embedding of the client-side script that shows and hides the busy
indicator `#busy-loadingGif` and installs a logarithmic label function on the
return-level slider.

The script is an immediately-invoked function that runs four statements in
order: two `bind( 'click', ... )` calls, one `on( 'shiny:idle', ... )` call and
one `data( 'ionRangeSlider' ).update( ... )` call.  The page it runs against is
explicit state: the elements reachable by selector with their inline style,
the widget data attached to elements, and the registered event bindings.

jQuery, the browser and the ionRangeSlider widget are not part of the
repository; the few operations the script calls on them are modelled from the
specification and are marked as such.  The script only composes `Math.round`
and `Math.pow`, so it is embedded over an abstract `JSMath`; `jsMath` is the
instance for JavaScript numbers, where `Math.round` is exact and `Math.pow` is
fixed where the language standard fixes it and left to the engine elsewhere.
-/

namespace Climex

/-! ## Data model -/

/-- Inline style of one element: a style property name mapped to its value, or
`none` when the property is not set. -/
abbrev Style := String → Option String

/-- Value of one entry of a widget's option bag: either a function on numbers
(such as a label formatter) or any other value, kept as text. -/
inductive OptVal (Num : Type) where
  | fn (f : Num → Num)
  | value (text : String)

/-- Option bag of a widget instance: option name mapped to its value. -/
abbrev Options (Num : Type) := String → Option (OptVal Num)

/-- What an event handler is attached to: an element found by a selector, or
the document. -/
inductive Target where
  | element (selector : String)
  | document
  deriving DecidableEq, Repr

/-- The three anonymous handler functions of the script, named after the
binding each one is passed to (source lines 3-6, 8-11 and 13-16). -/
inductive Handler where
  | drawAnimationClick
  | drawMarkersClick
  | shinyIdle
  deriving DecidableEq, Repr

/-- One registered event binding: target, event type and handler. -/
structure Binding where
  target : Target
  event : String
  handler : Handler
  deriving DecidableEq, Repr

/-- The page the script runs against. `elements sel` is the inline style of the
element matched by selector `sel` (`none`: no such element), `widgets sel key`
is the option bag of the widget stored under data key `key` on that element,
`bindings` lists the registered handlers in registration order, and
`ancestors sel` lists the elements that contain the element matched by `sel`,
innermost first. -/
structure Page (Num : Type) where
  elements : String → Option Style
  widgets : String → String → Option (Options Num)
  bindings : List Binding
  ancestors : String → List String

/-- The errors the script can raise. -/
inductive JSError where
  | typeError
  deriving DecidableEq, Repr

/-- Result of running statements: normal completion, or an uncaught error
together with the page as the statements before the error left it. -/
inductive Completion (Num : Type) where
  | normal (page : Page Num)
  | abrupt (error : JSError) (page : Page Num)

/-- The page a run ends with, whether or not it raised an error. -/
def Completion.page {Num : Type} : Completion Num → Page Num
  | .normal p => p
  | .abrupt _ p => p

/-- The error a run ended with, if any. -/
def Completion.error {Num : Type} : Completion Num → Option JSError
  | .normal _ => none
  | .abrupt e _ => some e

/-- The part of JavaScript's `Math` the script uses, over an abstract number
type: the literal `10`, `Math.pow` and `Math.round`. -/
structure JSMath (Num : Type) where
  ten : Num
  pow : Num → Num → Num
  round : Num → Num

variable {Num : Type}

/-! ## Library operations the script calls -/

/-- Modelled from the spec: the jQuery setter `$( sel ).css( name, value )`,
which is not part of this repository. It sets style property `name` of the
element matched by `sel` to `value`; on an empty selection it does nothing. -/
def jqCss (sel name value : String) (p : Page Num) : Page Num :=
  { p with
    elements := fun s =>
      if s = sel then
        (p.elements s).map (fun st k => if k = name then some value else st k)
      else p.elements s }

/-- Modelled from the spec: jQuery's `$( sel ).bind( event, handler )`, which is
not part of this repository. It registers the handler on the matched element;
on an empty selection it does nothing. -/
def jqBind (sel event : String) (h : Handler) (p : Page Num) : Page Num :=
  match p.elements sel with
  | none => p
  | some _ => { p with bindings := p.bindings ++ [⟨.element sel, event, h⟩] }

/-- Modelled from the spec: jQuery's `$( document ).on( event, handler )`, which
is not part of this repository. The document always exists, so the handler
is always registered. -/
def jqOn (event : String) (h : Handler) (p : Page Num) : Page Num :=
  { p with bindings := p.bindings ++ [⟨.document, event, h⟩] }

/-- Modelled from the spec: jQuery's `$( sel ).data( key )`, which is not part
of this repository. It returns the widget stored under `key` on the matched
element, and nothing (`undefined`) when the element or the entry is absent. -/
def jqData (sel key : String) (p : Page Num) : Option (Options Num) :=
  match p.elements sel with
  | none => none
  | some _ => p.widgets sel key

/-- Merge of two option bags: entries of `new` replace those of `old`. -/
def mergeOptions (new old : Options Num) : Options Num :=
  fun k => match new k with
    | some v => some v
    | none => old k

/-- Modelled from the spec: the `update( options )` operation of the range
slider widget, which is not part of this repository. It replaces the options
named in `new` on the widget stored under `key` on element `sel` and keeps the
widget's other options. -/
def widgetUpdate (sel key : String) (new : Options Num) (p : Page Num) : Page Num :=
  { p with
    widgets := fun s k =>
      if s = sel ∧ k = key then (p.widgets s k).map (mergeOptions new)
      else p.widgets s k }

/-! ## The script -/

/-- Source lines 3-6: the handler bound to a click on
`#animation-buttonDrawAnimation`. -/
def onDrawAnimationClick (p : Page Num) : Page Num :=
  jqCss "#busy-loadingGif" "width" "100%"
    (jqCss "#busy-loadingGif" "visibility" "visible" p)

/-- Source lines 8-11: the handler bound to a click on
`#leaflet-buttonDrawMarkers`. The source comment above it (line 7) repeats the
one of line 2, "if the animation is started"; the binding is to the
draw-markers button. -/
def onDrawMarkersClick (p : Page Num) : Page Num :=
  jqCss "#busy-loadingGif" "width" "100%"
    (jqCss "#busy-loadingGif" "visibility" "visible" p)

/-- Source lines 13-16: the handler bound to `shiny:idle` on the document. -/
def onShinyIdle (p : Page Num) : Page Num :=
  jqCss "#busy-loadingGif" "width" "0%"
    (jqCss "#busy-loadingGif" "visibility" "hidden" p)

/-- Body of each handler. -/
def Handler.run : Handler → Page Num → Page Num
  | .drawAnimationClick => onDrawAnimationClick
  | .drawMarkersClick => onDrawMarkersClick
  | .shinyIdle => onShinyIdle

/-- Source line 20: `function( exponent ) { return( Math.round( Math.pow( 10,
exponent ) ) ); }`. -/
def prettify (M : JSMath Num) (exponent : Num) : Num :=
  M.round (M.pow M.ten exponent)

/-- The object literal passed to `update` (source lines 19-21): one entry,
`prettify`. -/
def updateArgument (M : JSMath Num) : Options Num :=
  fun k => if k = "prettify" then some (.fn (prettify M)) else none

/-- Source lines 19-21: `$( '#leaflet-sliderReturnLevel' ).data(
'ionRangeSlider' ).update( ... )`. When `data` returns nothing, calling
`update` on it raises a `TypeError` and the page is left as it was. -/
def updateSlider (M : JSMath Num) (p : Page Num) : Completion Num :=
  match jqData "#leaflet-sliderReturnLevel" "ionRangeSlider" p with
  | none => .abrupt .typeError p
  | some _ =>
    .normal
      (widgetUpdate "#leaflet-sliderReturnLevel" "ionRangeSlider" (updateArgument M) p)

/-- The three bindings of source lines 3-16, in source order. Each `bind` acts
on the page the previous statement left. -/
def registerBindings (p : Page Num) : Page Num :=
  jqOn "shiny:idle" .shinyIdle
    (jqBind "#leaflet-buttonDrawMarkers" "click" .drawMarkersClick
      (jqBind "#animation-buttonDrawAnimation" "click" .drawAnimationClick p))

/-- The whole script body (source lines 1-22): the three bindings, then the
slider update. -/
def script (M : JSMath Num) (p : Page Num) : Completion Num :=
  updateSlider M (registerBindings p)

/-! ## JavaScript numbers and `Math` -/

/-- A JavaScript number: NaN, one of the two infinities, or a finite value,
kept as an exact rational. The sign of zero is not kept: no rounding or
comparison below depends on it. -/
inductive JSNumber where
  | nan
  | posInf
  | negInf
  | finite (q : ℚ)
  deriving DecidableEq

/-- The finite values a binary64 holds: a significand below `2^53` times a
power of two whose exponent lies between -1074 and 971. -/
def IsBinary64 (q : ℚ) : Prop :=
  ∃ m : ℕ, ∃ e : ℤ, m < 2 ^ 53 ∧ -1074 ≤ e ∧ e ≤ 971 ∧ |q| = (m : ℚ) * 2 ^ e

/-- The values a JavaScript number can take: a finite one is a binary64. -/
def JSNumber.IsNumber : JSNumber → Prop
  | .finite q => IsBinary64 q
  | _ => True

/-- The comparison `x <= y` of JavaScript: false as soon as one side is NaN. -/
def JSNumber.le : JSNumber → JSNumber → Bool
  | .nan, _ => false
  | _, .nan => false
  | .negInf, _ => true
  | _, .posInf => true
  | .finite a, .finite b => decide (a ≤ b)
  | _, _ => false

/-- Modelled from the spec: `Math.round`, a built-in of the JavaScript engine
and not part of this repository. It returns the integer nearest to its
argument, the upper one at a tie, and returns NaN and the infinities as they
are. -/
def mathRound : JSNumber → JSNumber
  | .finite q => .finite ⌊q + 1 / 2⌋
  | x => x

/-- What an engine is free to choose in `Math.pow`: the results the language
standard leaves as an approximation. Each result is a JavaScript number. -/
structure Engine where
  approxPow : JSNumber → JSNumber → JSNumber
  isNumber : ∀ b x, (approxPow b x).IsNumber

/-- Modelled from the spec: `Math.pow`, a built-in of the JavaScript engine and
not part of this repository. The standard fixes the result for an exponent
that is NaN (NaN), zero (1), or infinite with a finite base above 1 in absolute
value (`+Infinity` for `+Infinity`, 0 for `-Infinity`), which are the fixed
cases a call with base 10 can reach; every other result is the engine's. -/
def mathPow (E : Engine) (base exponent : JSNumber) : JSNumber :=
  match exponent with
  | .nan => .nan
  | .finite x => if x = 0 then .finite 1 else E.approxPow base exponent
  | .posInf =>
    match base with
    | .finite b => if 1 < |b| then .posInf else E.approxPow base exponent
    | _ => E.approxPow base exponent
  | .negInf =>
    match base with
    | .finite b => if 1 < |b| then .finite 0 else E.approxPow base exponent
    | _ => E.approxPow base exponent

/-- The `Math` of an engine: the literal `10`, `Math.pow` and `Math.round`. -/
def jsMath (E : Engine) : JSMath JSNumber := ⟨.finite 10, mathPow E, mathRound⟩

/-! ## Events -/

/-- An event delivered to the page: where it is triggered and its type. -/
structure Event where
  target : Target
  type : String
  deriving DecidableEq, Repr

/-- A click on the "draw animation" button. -/
def clickDrawAnimation : Event := ⟨.element "#animation-buttonDrawAnimation", "click"⟩

/-- A click on the "draw markers" button. -/
def clickDrawMarkers : Event := ⟨.element "#leaflet-buttonDrawMarkers", "click"⟩

/-- The host application's idle signal, triggered on the document. -/
def shinyIdle : Event := ⟨.document, "shiny:idle"⟩

/-- Modelled from the spec: the route of an event through the page, which the
browser and jQuery decide and this repository does not. An event triggered on
an element visits that element, then every element that contains it, innermost
first, then the document (bubbling); the idle signal, a document-level event,
visits the document only. -/
def propagationPath (p : Page Num) : Target → List Target
  | .document => [.document]
  | .element sel => .element sel :: ((p.ancestors sel).map .element ++ [.document])

/-- The handlers registered on one target for one event type, in registration
order. -/
def handlersAt (t : Target) (type : String) (bs : List Binding) : List Handler :=
  (bs.filter (fun b => b.target = t ∧ b.event = type)).map (fun b => b.handler)

/-- Modelled from the spec: the handlers an event reaches, which jQuery decides
and this repository does not: at each target on the event's route, the
handlers registered there for the event's type. -/
def handlersFor (path : List Target) (type : String) (bs : List Binding) : List Handler :=
  path.flatMap (fun t => handlersAt t type bs)

/-- Running a list of handlers one after the other, each to completion. -/
def runHandlers (hs : List Handler) (p : Page Num) : Page Num :=
  hs.foldl (fun q h => h.run q) p

/-- Modelled from the spec: delivery of one event, which jQuery performs and
this repository does not. Every handler the event reaches runs, each to
completion, in the order of the route. -/
def dispatch (e : Event) (p : Page Num) : Page Num :=
  runHandlers (handlersFor (propagationPath p e.target) e.type p.bindings) p

/-- Delivery of a sequence of events, first to last. -/
def dispatchAll (es : List Event) (p : Page Num) : Page Num :=
  es.foldl (fun q e => dispatch e q) p

/-! ## Observations on the busy indicator -/

/-- Value of a style property of the busy indicator (`none` when the element or
the property is absent). -/
def indicator (p : Page Num) (name : String) : Option String :=
  (p.elements "#busy-loadingGif").bind (fun st => st name)

/-- The indicator is in the shown configuration: visible at full width. -/
def Shown (p : Page Num) : Prop :=
  indicator p "visibility" = some "visible" ∧ indicator p "width" = some "100%"

/-- The indicator is in the hidden configuration: hidden at zero width. -/
def Hidden (p : Page Num) : Prop :=
  indicator p "visibility" = some "hidden" ∧ indicator p "width" = some "0%"

instance (p : Page Num) : Decidable (Shown p) := by unfold Shown; infer_instance

instance (p : Page Num) : Decidable (Hidden p) := by unfold Hidden; infer_instance

/-- The bindings the script registers when both buttons are present. -/
def scriptBindings : List Binding :=
  [ ⟨.element "#animation-buttonDrawAnimation", "click", .drawAnimationClick⟩,
    ⟨.element "#leaflet-buttonDrawMarkers", "click", .drawMarkersClick⟩,
    ⟨.document, "shiny:idle", .shinyIdle⟩ ]

/-- Every registered binding is one the script makes. -/
def FromScript (p : Page Num) : Prop :=
  ∀ b ∈ p.bindings, b ∈ scriptBindings

instance (p : Page Num) : Decidable (FromScript p) := by unfold FromScript; infer_instance

/-- Value of one option of the widget stored under `key` on element `sel`
(`none` when the widget or the option is absent). -/
def widgetOption (p : Page Num) (sel key name : String) : Option (OptVal Num) :=
  (p.widgets sel key).bind (fun o => o name)

/-- Two `css` calls on the indicator, as every handler makes them. -/
def setBoth (v w : String) (p : Page Num) : Page Num :=
  jqCss "#busy-loadingGif" "width" w (jqCss "#busy-loadingGif" "visibility" v p)

/-! ## Concrete inputs used to evaluate the definitions -/

/-- Power of ten of the sample engine: a non-decreasing step function that is
the binary64 nearest to `10^x` at the exponents -1, 0, 1, 2 and 2.5. -/
def samplePow (x : ℚ) : ℚ :=
  if x < -1 then 0
  else if x < 0 then 3602879701896397 / 36028797018963968
  else if x < 1 then 1
  else if x < 2 then 10
  else if x < 5 / 2 then 100
  else if x < 3 then 5563137692178265 / 17592186044416
  else 1000

/-- A sample engine, used only to evaluate the definitions: it computes powers
of a finite base by `samplePow` and returns NaN where the base is not finite. -/
def sampleEngine : Engine where
  approxPow := fun b x =>
    match b, x with
    | .finite _, .finite q => .finite (samplePow q)
    | _, _ => .nan
  isNumber := by
    intro b x
    cases b <;> cases x <;> try trivial
    show IsBinary64 (samplePow _)
    unfold samplePow
    split_ifs
    · exact ⟨0, 0, by norm_num, by norm_num, by norm_num, by norm_num⟩
    · exact ⟨3602879701896397, -55, by norm_num, by norm_num, by norm_num, by norm_num⟩
    · exact ⟨1, 0, by norm_num, by norm_num, by norm_num, by norm_num⟩
    · exact ⟨10, 0, by norm_num, by norm_num, by norm_num, by norm_num⟩
    · exact ⟨100, 0, by norm_num, by norm_num, by norm_num, by norm_num⟩
    · exact ⟨5563137692178265, -44, by norm_num, by norm_num, by norm_num, by norm_num⟩
    · exact ⟨1000, 0, by norm_num, by norm_num, by norm_num, by norm_num⟩

/-- A sample page: both buttons and the indicator exist with no inline style,
each directly inside `body`, there is no slider element, and nothing is
registered. -/
def pageNoSlider : Page JSNumber :=
  { elements := fun s =>
      if s = "#animation-buttonDrawAnimation" ∨ s = "#leaflet-buttonDrawMarkers"
          ∨ s = "#busy-loadingGif" then some (fun _ => none) else none
    widgets := fun _ _ => none
    bindings := []
    ancestors := fun _ => ["body"] }

/-- A sample page like `pageNoSlider`, with the slider element and a widget
under `ionRangeSlider` whose only option is `grid`. -/
def pageWithSlider : Page JSNumber :=
  { elements := fun s =>
      if s = "#animation-buttonDrawAnimation" ∨ s = "#leaflet-buttonDrawMarkers"
          ∨ s = "#busy-loadingGif" ∨ s = "#leaflet-sliderReturnLevel"
        then some (fun _ => none) else none
    widgets := fun s k =>
      if s = "#leaflet-sliderReturnLevel" ∧ k = "ionRangeSlider" then
        some (fun name => if name = "grid" then some (.value "true") else none)
      else none
    bindings := []
    ancestors := fun _ => ["body"] }

/-- A sample page after the script ran: the indicator is hidden at zero
width, both buttons exist, each element is directly inside `body`, and the
three bindings are registered. -/
def pageHidden : Page JSNumber :=
  { elements := fun s =>
      if s = "#busy-loadingGif" then
        some (fun k =>
          if k = "visibility" then some "hidden"
          else if k = "width" then some "0%" else none)
      else if s = "#animation-buttonDrawAnimation" ∨ s = "#leaflet-buttonDrawMarkers" then
        some (fun _ => none)
      else none
    widgets := fun _ _ => none
    bindings := scriptBindings
    ancestors := fun _ => ["body"] }

/-! ## Basic facts about the library operations -/

@[simp] theorem jqCss_bindings (sel name value : String) (p : Page Num) :
    (jqCss sel name value p).bindings = p.bindings := rfl

@[simp] theorem jqCss_widgets (sel name value : String) (p : Page Num) :
    (jqCss sel name value p).widgets = p.widgets := rfl

theorem jqCss_elements_other (sel name value s : String) (p : Page Num) (h : s ≠ sel) :
    (jqCss sel name value p).elements s = p.elements s := by
  simp [jqCss, h]

theorem jqCss_elements_self (sel name value : String) (p : Page Num) :
    (jqCss sel name value p).elements sel
      = (p.elements sel).map (fun st k => if k = name then some value else st k) := by
  simp [jqCss]

theorem indicator_jqCss (name value k : String) (p : Page Num) :
    indicator (jqCss "#busy-loadingGif" name value p) k
      = if k = name then (p.elements "#busy-loadingGif").map (fun _ => value)
        else indicator p k := by
  unfold indicator
  rw [jqCss_elements_self]
  cases p.elements "#busy-loadingGif" <;> by_cases hk : k = name <;> simp [hk]

theorem indicator_setBoth (v w k : String) (p : Page Num) :
    indicator (setBoth v w p) k
      = if k = "width" then (p.elements "#busy-loadingGif").map (fun _ => w)
        else if k = "visibility" then (p.elements "#busy-loadingGif").map (fun _ => v)
        else indicator p k := by
  unfold setBoth
  rw [indicator_jqCss, indicator_jqCss, jqCss_elements_self]
  by_cases h1 : k = "width"
  · cases p.elements "#busy-loadingGif" <;> simp [h1]
  · simp [h1]

theorem setBoth_elements_other (v w s : String) (p : Page Num) (h : s ≠ "#busy-loadingGif") :
    (setBoth v w p).elements s = p.elements s := by
  unfold setBoth
  rw [jqCss_elements_other _ _ _ _ _ h, jqCss_elements_other _ _ _ _ _ h]

theorem setBoth_elements_isSome (v w : String) (p : Page Num) :
    ((setBoth v w p).elements "#busy-loadingGif").isSome
      = (p.elements "#busy-loadingGif").isSome := by
  unfold setBoth
  rw [jqCss_elements_self, jqCss_elements_self]
  cases p.elements "#busy-loadingGif" <;> simp

/-- A second pair of `css` calls overwrites the first pair. -/
theorem setBoth_setBoth (v w v2 w2 : String) (p : Page Num) :
    setBoth v w (setBoth v2 w2 p) = setBoth v w p := by
  unfold setBoth jqCss
  simp only
  congr 1
  funext s
  by_cases hs : s = "#busy-loadingGif"
  · subst hs
    simp only [if_true]
    cases p.elements "#busy-loadingGif" with
    | none => rfl
    | some st =>
      simp only [Option.map_some']
      congr 1
      funext k
      by_cases h1 : k = "width" <;> by_cases h2 : k = "visibility" <;> simp [h1, h2]
  · simp [hs]

/-- Setting both properties to the values they already have changes nothing. -/
theorem setBoth_of_indicator (v w : String) (p : Page Num)
    (hv : indicator p "visibility" = some v) (hw : indicator p "width" = some w) :
    setBoth v w p = p := by
  cases p with
  | mk els wds bds anc =>
    unfold setBoth jqCss
    simp only
    congr 1
    funext s
    by_cases hs : s = "#busy-loadingGif"
    · subst hs
      simp only [if_true]
      unfold indicator at hv hw
      simp only at hv hw
      cases hel : els "#busy-loadingGif" with
      | none => rfl
      | some st =>
        rw [hel] at hv hw
        simp only [Option.some_bind] at hv hw
        simp only [Option.map_some']
        congr 1
        funext k
        by_cases h1 : k = "width"
        · subst h1; simp [hw]
        · by_cases h2 : k = "visibility"
          · subst h2; simp [hv]
          · simp [h1, h2]
    · simp [hs]

theorem shown_setBoth (p : Page Num) (st : Style)
    (h : p.elements "#busy-loadingGif" = some st) : Shown (setBoth "visible" "100%" p) := by
  unfold Shown
  rw [indicator_setBoth, indicator_setBoth, h]
  simp

theorem hidden_setBoth (p : Page Num) (st : Style)
    (h : p.elements "#busy-loadingGif" = some st) : Hidden (setBoth "hidden" "0%" p) := by
  unfold Hidden
  rw [indicator_setBoth, indicator_setBoth, h]
  simp

theorem exists_of_indicator (p : Page Num) (k x : String) (h : indicator p k = some x) :
    ∃ st, p.elements "#busy-loadingGif" = some st := by
  unfold indicator at h
  cases hel : p.elements "#busy-loadingGif" with
  | none => rw [hel] at h; simp at h
  | some st => exact ⟨st, rfl⟩

theorem not_shown_and_hidden (p : Page Num) : ¬ (Shown p ∧ Hidden p) := by
  rintro ⟨⟨hv, _⟩, ⟨hv2, _⟩⟩
  rw [hv] at hv2
  simp at hv2

/-! ## Facts about handlers and event delivery -/

theorem run_bindings (h : Handler) (p : Page Num) : (h.run p).bindings = p.bindings := by
  cases h <;> rfl

theorem run_widgets (h : Handler) (p : Page Num) : (h.run p).widgets = p.widgets := by
  cases h <;> rfl

theorem run_ancestors (h : Handler) (p : Page Num) : (h.run p).ancestors = p.ancestors := by
  cases h <;> rfl

/-- A handler overwrites what the handler before it did. -/
theorem run_run (h g : Handler) (p : Page Num) : h.run (g.run p) = h.run p := by
  cases h <;> cases g <;> exact setBoth_setBoth _ _ _ _ p

theorem run_keeps_configuration (h : Handler) (p : Page Num) (hp : Shown p ∨ Hidden p) :
    Shown (h.run p) ∨ Hidden (h.run p) := by
  have hex : ∃ st, p.elements "#busy-loadingGif" = some st := by
    rcases hp with hp | hp
    · exact exists_of_indicator p _ _ hp.1
    · exact exists_of_indicator p _ _ hp.1
  obtain ⟨st, hst⟩ := hex
  cases h
  · exact Or.inl (shown_setBoth p st hst)
  · exact Or.inl (shown_setBoth p st hst)
  · exact Or.inr (hidden_setBoth p st hst)

theorem run_click_shown (h : Handler) (p : Page Num) (hh : h ≠ .shinyIdle) (hp : Shown p) :
    Shown (h.run p) := by
  obtain ⟨st, hst⟩ := exists_of_indicator p _ _ hp.1
  cases h
  · exact shown_setBoth p st hst
  · exact shown_setBoth p st hst
  · exact absurd rfl hh

theorem runHandlers_bindings (hs : List Handler) (p : Page Num) :
    (runHandlers hs p).bindings = p.bindings := by
  induction hs generalizing p with
  | nil => rfl
  | cons h t ih =>
    show (runHandlers t (h.run p)).bindings = p.bindings
    rw [ih, run_bindings]

theorem runHandlers_ancestors (hs : List Handler) (p : Page Num) :
    (runHandlers hs p).ancestors = p.ancestors := by
  induction hs generalizing p with
  | nil => rfl
  | cons h t ih =>
    show (runHandlers t (h.run p)).ancestors = p.ancestors
    rw [ih, run_ancestors]

theorem dispatch_bindings (e : Event) (p : Page Num) :
    (dispatch e p).bindings = p.bindings :=
  runHandlers_bindings _ p

theorem dispatch_ancestors (e : Event) (p : Page Num) :
    (dispatch e p).ancestors = p.ancestors :=
  runHandlers_ancestors _ p

theorem propagationPath_congr (p q : Page Num) (h : q.ancestors = p.ancestors) (t : Target) :
    propagationPath q t = propagationPath p t := by
  cases t with
  | document => rfl
  | element sel => simp only [propagationPath, h]

/-- Only the last handler of a list matters. -/
theorem runHandlers_eq_last (hs : List Handler) (p : Page Num) :
    runHandlers hs p = match hs.getLast? with
      | none => p
      | some h => h.run p := by
  induction hs generalizing p with
  | nil => rfl
  | cons h t ih =>
    show runHandlers t (h.run p) = _
    rw [ih]
    cases t with
    | nil => rfl
    | cons g u =>
      rw [List.getLast?_cons_cons]
      cases hl : (g :: u).getLast? with
      | none => simp at hl
      | some k => exact run_run k h p

theorem runHandlers_idem (hs : List Handler) (p : Page Num) :
    runHandlers hs (runHandlers hs p) = runHandlers hs p := by
  rw [runHandlers_eq_last hs (runHandlers hs p), runHandlers_eq_last hs p]
  cases hs.getLast? with
  | none => rfl
  | some h => exact run_run h h p

theorem runHandlers_keeps_configuration (hs : List Handler) (p : Page Num)
    (hp : Shown p ∨ Hidden p) : Shown (runHandlers hs p) ∨ Hidden (runHandlers hs p) := by
  induction hs generalizing p with
  | nil => exact hp
  | cons h t ih => exact ih (h.run p) (run_keeps_configuration h p hp)

theorem runHandlers_click_shown (hs : List Handler) (p : Page Num)
    (hh : ∀ h ∈ hs, h ≠ Handler.shinyIdle) (hp : Shown p) : Shown (runHandlers hs p) := by
  induction hs generalizing p with
  | nil => exact hp
  | cons h t ih =>
    exact ih (h.run p) (fun g hg => hh g (List.mem_cons_of_mem _ hg))
      (run_click_shown h p (hh h (List.mem_cons_self _ _)) hp)

/-- A non-empty run of click handlers leaves what one click handler leaves. -/
theorem runHandlers_of_clicks (hs : List Handler) (p : Page Num) (hne : hs ≠ [])
    (hall : ∀ h ∈ hs, h ≠ Handler.shinyIdle) :
    runHandlers hs p = setBoth "visible" "100%" p := by
  rw [runHandlers_eq_last, List.getLast?_eq_getLast _ hne]
  have hmem := List.getLast_mem hne
  have hlast := hall _ hmem
  cases hl : hs.getLast hne with
  | drawAnimationClick => rfl
  | drawMarkersClick => rfl
  | shinyIdle => exact absurd hl hlast

theorem mem_handlersFor (path : List Target) (type : String) (bs : List Binding)
    (h : Handler) (hmem : h ∈ handlersFor path type bs) :
    ∃ b ∈ bs, b.event = type ∧ b.handler = h := by
  unfold handlersFor at hmem
  rw [List.mem_flatMap] at hmem
  obtain ⟨t, -, ht⟩ := hmem
  unfold handlersAt at ht
  rw [List.mem_map] at ht
  obtain ⟨b, hb, hbh⟩ := ht
  rw [List.mem_filter] at hb
  obtain ⟨hb1, hb2⟩ := hb
  simp only [decide_eq_true_eq] at hb2
  exact ⟨b, hb1, hb2.2, hbh⟩

/-- Among the script's bindings, the hiding handler is reached only by events of
type `shiny:idle`. -/
theorem handlersFor_ne_shinyIdle (path : List Target) (type : String) (bs : List Binding)
    (hbs : ∀ b ∈ bs, b ∈ scriptBindings) (hty : type ≠ "shiny:idle") :
    ∀ h ∈ handlersFor path type bs, h ≠ Handler.shinyIdle := by
  intro h hmem hidle
  obtain ⟨b, hb, hev, hbh⟩ := mem_handlersFor path type bs h hmem
  have hsc := hbs b hb
  apply hty
  simp only [scriptBindings, List.mem_cons, List.mem_singleton, List.not_mem_nil,
    or_false] at hsc
  rcases hsc with rfl | rfl | rfl
  · simp [hidle] at hbh
  · simp [hidle] at hbh
  · exact hev.symm

theorem handlersFor_cons (t : Target) (path : List Target) (type : String)
    (bs : List Binding) :
    handlersFor (t :: path) type bs = handlersAt t type bs ++ handlersFor path type bs := by
  simp [handlersFor]

theorem handlersAt_clickDrawAnimation :
    handlersAt (.element "#animation-buttonDrawAnimation") "click" scriptBindings
      = [Handler.drawAnimationClick] := by
  decide

theorem handlersAt_clickDrawMarkers :
    handlersAt (.element "#leaflet-buttonDrawMarkers") "click" scriptBindings
      = [Handler.drawMarkersClick] := by
  decide

theorem handlersFor_shinyIdle :
    handlersFor [Target.document] "shiny:idle" scriptBindings = [Handler.shinyIdle] := by
  decide

theorem dispatch_of_scriptBindings (e : Event) (p : Page Num)
    (hreg : p.bindings = scriptBindings) :
    dispatch e p
      = runHandlers (handlersFor (propagationPath p e.target) e.type scriptBindings) p := by
  unfold dispatch
  rw [hreg]

/-- With the script's bindings, a click on "draw animation" does what the click
handler does, whatever contains the button. -/
theorem dispatch_clickDrawAnimation (p : Page Num) (hreg : p.bindings = scriptBindings) :
    dispatch clickDrawAnimation p = setBoth "visible" "100%" p := by
  rw [dispatch_of_scriptBindings _ _ hreg]
  refine runHandlers_of_clicks _ p ?_
    (handlersFor_ne_shinyIdle _ _ _ (fun _ hb => hb) (by decide))
  show handlersFor (propagationPath p (.element "#animation-buttonDrawAnimation")) "click"
    scriptBindings ≠ []
  simp only [propagationPath]
  rw [handlersFor_cons, handlersAt_clickDrawAnimation]
  simp

/-- With the script's bindings, a click on "draw markers" does what the click
handler does, whatever contains the button. -/
theorem dispatch_clickDrawMarkers (p : Page Num) (hreg : p.bindings = scriptBindings) :
    dispatch clickDrawMarkers p = setBoth "visible" "100%" p := by
  rw [dispatch_of_scriptBindings _ _ hreg]
  refine runHandlers_of_clicks _ p ?_
    (handlersFor_ne_shinyIdle _ _ _ (fun _ hb => hb) (by decide))
  show handlersFor (propagationPath p (.element "#leaflet-buttonDrawMarkers")) "click"
    scriptBindings ≠ []
  simp only [propagationPath]
  rw [handlersFor_cons, handlersAt_clickDrawMarkers]
  simp

/-- With the script's bindings, the idle signal does what the idle handler
does. -/
theorem dispatch_shinyIdle (p : Page Num) (hreg : p.bindings = scriptBindings) :
    dispatch shinyIdle p = setBoth "hidden" "0%" p := by
  rw [dispatch_of_scriptBindings _ _ hreg]
  show runHandlers (handlersFor [Target.document] "shiny:idle" scriptBindings) p = _
  rw [handlersFor_shinyIdle]
  rfl

/-- A non-empty run of idle handlers leaves what one idle handler leaves. -/
theorem runHandlers_of_idles (hs : List Handler) (p : Page Num) (hne : hs ≠ [])
    (hall : ∀ h ∈ hs, h = Handler.shinyIdle) :
    runHandlers hs p = setBoth "hidden" "0%" p := by
  rw [runHandlers_eq_last, List.getLast?_eq_getLast _ hne, hall _ (List.getLast_mem hne)]
  rfl

theorem handlersFor_append (l₁ l₂ : List Target) (type : String) (bs : List Binding) :
    handlersFor (l₁ ++ l₂) type bs = handlersFor l₁ type bs ++ handlersFor l₂ type bs := by
  simp [handlersFor]

/-- With the script's bindings, the idle signal triggered on an element bubbles
to the document and does what the idle handler does. -/
theorem dispatch_idle_from_element (p : Page Num) (hreg : p.bindings = scriptBindings)
    (sel : String) :
    dispatch ⟨.element sel, "shiny:idle"⟩ p = setBoth "hidden" "0%" p := by
  rw [dispatch_of_scriptBindings _ _ hreg]
  apply runHandlers_of_idles
  · show handlersFor (propagationPath p (.element sel)) "shiny:idle" scriptBindings ≠ []
    simp only [propagationPath]
    rw [handlersFor_cons, handlersFor_append, handlersFor_shinyIdle]
    simp
  · intro h hmem
    obtain ⟨b, hb, hev, hbh⟩ := mem_handlersFor _ _ _ h hmem
    simp only [scriptBindings, List.mem_cons, List.mem_singleton, List.not_mem_nil,
      or_false] at hb
    have hev2 : b.event = "shiny:idle" := hev
    rcases hb with rfl | rfl | rfl
    · exact absurd hev2 (by decide)
    · exact absurd hev2 (by decide)
    · exact hbh.symm

theorem dispatch_shown_of_ne (e : Event) (p : Page Num) (hreg : FromScript p)
    (he : e.type ≠ "shiny:idle") (hp : Shown p) : Shown (dispatch e p) :=
  runHandlers_click_shown _ p (handlersFor_ne_shinyIdle _ e.type p.bindings hreg he) hp

theorem fromScript_dispatch (e : Event) (p : Page Num) (hreg : FromScript p) :
    FromScript (dispatch e p) := by
  unfold FromScript
  rw [dispatch_bindings]
  exact hreg

theorem dispatchAll_shown_of_ne (es : List Event) (p : Page Num) (hreg : FromScript p)
    (hes : ∀ e ∈ es, e.type ≠ "shiny:idle") (hp : Shown p) : Shown (dispatchAll es p) := by
  induction es generalizing p with
  | nil => exact hp
  | cons e t ih =>
    exact ih (dispatch e p) (fromScript_dispatch e p hreg)
      (fun x hx => hes x (List.mem_cons_of_mem _ hx))
      (dispatch_shown_of_ne e p hreg (hes e (List.mem_cons_self _ _)) hp)

theorem dispatchAll_keeps_configuration (es : List Event) (p : Page Num)
    (hp : Shown p ∨ Hidden p) : Shown (dispatchAll es p) ∨ Hidden (dispatchAll es p) := by
  induction es generalizing p with
  | nil => exact hp
  | cons e t ih => exact ih (dispatch e p) (runHandlers_keeps_configuration _ p hp)

/-! ## Facts about the script's statements -/

theorem jqBind_elements (sel event : String) (h : Handler) (p : Page Num) :
    (jqBind sel event h p).elements = p.elements := by
  unfold jqBind
  cases p.elements sel <;> rfl

theorem jqBind_widgets (sel event : String) (h : Handler) (p : Page Num) :
    (jqBind sel event h p).widgets = p.widgets := by
  unfold jqBind
  cases p.elements sel <;> rfl

theorem jqBind_bindings (sel event : String) (h : Handler) (p : Page Num) :
    (jqBind sel event h p).bindings
      = p.bindings ++ if (p.elements sel).isSome then [⟨.element sel, event, h⟩] else [] := by
  unfold jqBind
  cases p.elements sel <;> simp

theorem registerBindings_elements (p : Page Num) :
    (registerBindings p).elements = p.elements := by
  unfold registerBindings jqOn
  simp only
  rw [jqBind_elements, jqBind_elements]

theorem registerBindings_widgets (p : Page Num) :
    (registerBindings p).widgets = p.widgets := by
  unfold registerBindings jqOn
  simp only
  rw [jqBind_widgets, jqBind_widgets]

/-- What the three binding statements register depends only on which of the
two buttons exist. -/
theorem registerBindings_bindings (p : Page Num) :
    (registerBindings p).bindings
      = p.bindings
        ++ (if (p.elements "#animation-buttonDrawAnimation").isSome then
              [⟨.element "#animation-buttonDrawAnimation", "click", .drawAnimationClick⟩]
            else [])
        ++ (if (p.elements "#leaflet-buttonDrawMarkers").isSome then
              [⟨.element "#leaflet-buttonDrawMarkers", "click", .drawMarkersClick⟩]
            else [])
        ++ [⟨.document, "shiny:idle", .shinyIdle⟩] := by
  unfold registerBindings jqOn
  simp only
  rw [jqBind_bindings, jqBind_bindings, jqBind_elements]

theorem jqData_registerBindings (sel key : String) (p : Page Num) :
    jqData sel key (registerBindings p) = jqData sel key p := by
  unfold jqData
  rw [registerBindings_elements, registerBindings_widgets]

theorem updateSlider_page_bindings (M : JSMath Num) (p : Page Num) :
    (updateSlider M p).page.bindings = p.bindings := by
  unfold updateSlider
  cases jqData "#leaflet-sliderReturnLevel" "ionRangeSlider" p <;> rfl

theorem updateSlider_page_elements (M : JSMath Num) (p : Page Num) :
    (updateSlider M p).page.elements = p.elements := by
  unfold updateSlider
  cases jqData "#leaflet-sliderReturnLevel" "ionRangeSlider" p <;> rfl

theorem updateSlider_error (M : JSMath Num) (p : Page Num) :
    (updateSlider M p).error
      = if (jqData "#leaflet-sliderReturnLevel" "ionRangeSlider" p).isSome then none
        else some JSError.typeError := by
  unfold updateSlider
  cases jqData "#leaflet-sliderReturnLevel" "ionRangeSlider" p <;> rfl

theorem updateSlider_of_none (M : JSMath Num) (p : Page Num)
    (h : jqData "#leaflet-sliderReturnLevel" "ionRangeSlider" p = none) :
    updateSlider M p = .abrupt .typeError p := by
  unfold updateSlider
  rw [h]

/-! ## Facts about JavaScript numbers -/

theorem isBinary64_intCast (k : ℤ) (h : k.natAbs < 2 ^ 53) : IsBinary64 (k : ℚ) := by
  refine ⟨k.natAbs, 0, h, by norm_num, by norm_num, ?_⟩
  rw [Nat.cast_natAbs]
  simp

theorem isBinary64_zero : IsBinary64 0 := by
  simpa using isBinary64_intCast 0 (by norm_num)

theorem isBinary64_one : IsBinary64 1 := by
  simpa using isBinary64_intCast 1 (by norm_num)

theorem floor_intCast_add_half (z : ℤ) : ⌊(z : ℚ) + 1 / 2⌋ = z := by
  rw [Int.floor_eq_iff]
  constructor <;> linarith

theorem isBinary64_round (q : ℚ) (h : IsBinary64 q) : IsBinary64 (⌊q + 1 / 2⌋ : ℤ) := by
  obtain ⟨m, e, hm, he1, he2, hq⟩ := h
  by_cases he : 0 ≤ e
  · -- `q` is an integer
    obtain ⟨k, rfl⟩ := Int.eq_ofNat_of_zero_le he
    have hq' : |q| = ((m * 2 ^ k : ℕ) : ℚ) := by rw [hq, zpow_natCast]; push_cast; rfl
    have hint : ∃ z : ℤ, q = z := by
      rcases abs_choice q with h1 | h1
      · exact ⟨(m * 2 ^ k : ℕ), by rw [← h1, hq']; simp⟩
      · refine ⟨-((m * 2 ^ k : ℕ) : ℤ), ?_⟩
        have : q = - |q| := by rw [h1]; ring
        rw [this, hq']; simp
    obtain ⟨z, rfl⟩ := hint
    rw [floor_intCast_add_half]
    exact ⟨m, (k : ℤ), hm, he1, he2, hq⟩
  · -- `|q| < 2 ^ 52`
    push_neg at he
    have h2 : (2 : ℚ) ^ e ≤ 2 ^ (-1 : ℤ) :=
      zpow_le_zpow_right₀ (by norm_num) (by omega)
    have hmq : (m : ℚ) < 2 ^ 53 := by exact_mod_cast hm
    have hm0 : (0 : ℚ) ≤ m := Nat.cast_nonneg m
    have habs : |q| < 2 ^ 52 := by
      rw [hq]
      calc (m : ℚ) * 2 ^ e ≤ m * 2 ^ (-1 : ℤ) := mul_le_mul_of_nonneg_left h2 hm0
        _ < 2 ^ 53 * 2 ^ (-1 : ℤ) := by
            apply mul_lt_mul_of_pos_right hmq; norm_num
        _ = 2 ^ 52 := by norm_num
    rw [abs_lt] at habs
    apply isBinary64_intCast
    have hfl := Int.floor_le (q + 1 / 2)
    have hfl2 := Int.lt_floor_add_one (q + 1 / 2)
    have hu : (⌊q + 1 / 2⌋ : ℚ) < 2 ^ 52 + 1 := by linarith [habs.2]
    have hl : (-(2 ^ 52 + 1) : ℚ) < ⌊q + 1 / 2⌋ := by linarith [habs.1]
    have hu' : ⌊q + 1 / 2⌋ < 2 ^ 52 + 1 := by exact_mod_cast hu
    have hl' : -(2 ^ 52 + 1) < ⌊q + 1 / 2⌋ := by exact_mod_cast hl
    omega

theorem not_isBinary64_ten_pow (n : ℕ) (hn : 23 ≤ n) : ¬ IsBinary64 ((10 : ℚ) ^ n) := by
  rintro ⟨m, e, hm, -, -, hq⟩
  have h10 : (0 : ℚ) < 10 ^ n := by positivity
  rw [abs_of_pos h10] at hq
  have hbig : 2 ^ 53 < 5 ^ n :=
    calc 2 ^ 53 < 5 ^ 23 := by norm_num
      _ ≤ 5 ^ n := Nat.pow_le_pow_right (by norm_num) hn
  by_cases he : 0 ≤ e
  · obtain ⟨k, rfl⟩ := Int.eq_ofNat_of_zero_le he
    have hnat : 10 ^ n = m * 2 ^ k := by
      have : ((10 ^ n : ℕ) : ℚ) = ((m * 2 ^ k : ℕ) : ℚ) := by
        push_cast; rw [hq, zpow_natCast]
      exact_mod_cast this
    have hdvd : 5 ^ n ∣ m * 2 ^ k := by
      rw [← hnat]
      exact pow_dvd_pow_of_dvd (by norm_num) n
    have hcop : Nat.Coprime (5 ^ n) (2 ^ k) :=
      Nat.Coprime.pow n k (by norm_num)
    have hm5 : 5 ^ n ∣ m := hcop.dvd_of_dvd_mul_right hdvd
    have hmpos : 0 < m := by
      rcases Nat.eq_zero_or_pos m with h0 | h0
      · rw [h0] at hnat; simp at hnat
      · exact h0
    have := Nat.le_of_dvd hmpos hm5
    omega
  · push_neg at he
    have h2 : (2 : ℚ) ^ e ≤ 1 := zpow_le_one_of_nonpos₀ (by norm_num) (by omega)
    have hm0 : (0 : ℚ) ≤ m := Nat.cast_nonneg m
    have h1 : (10 : ℚ) ^ n ≤ m := by
      rw [hq]; exact mul_le_of_le_one_right hm0 h2
    have h3 : (10 : ℚ) ^ 23 ≤ 10 ^ n := pow_le_pow_right₀ (by norm_num) hn
    have hmq : (m : ℚ) < 2 ^ 53 := by exact_mod_cast hm
    have : (2 : ℚ) ^ 53 < 10 ^ 23 := by norm_num
    linarith

theorem mathRound_isNumber (x : JSNumber) (h : x.IsNumber) : (mathRound x).IsNumber := by
  cases x with
  | finite q => exact isBinary64_round q h
  | nan => trivial
  | posInf => trivial
  | negInf => trivial

theorem mathPow_isNumber (E : Engine) (b x : JSNumber) : (mathPow E b x).IsNumber := by
  unfold mathPow
  cases x with
  | nan => trivial
  | finite q =>
    by_cases hq : q = 0
    · simp only [hq, if_true]; exact isBinary64_one
    · simp only [hq, if_false]; exact E.isNumber _ _
  | posInf =>
    cases b with
    | finite c =>
      by_cases hc : 1 < |c|
      · simp only [hc, if_true]; trivial
      · simp only [hc, if_false]; exact E.isNumber _ _
    | nan => exact E.isNumber _ _
    | posInf => exact E.isNumber _ _
    | negInf => exact E.isNumber _ _
  | negInf =>
    cases b with
    | finite c =>
      by_cases hc : 1 < |c|
      · simp only [hc, if_true]; exact isBinary64_zero
      · simp only [hc, if_false]; exact E.isNumber _ _
    | nan => exact E.isNumber _ _
    | posInf => exact E.isNumber _ _
    | negInf => exact E.isNumber _ _

theorem prettify_isNumber (E : Engine) (x : JSNumber) : (prettify (jsMath E) x).IsNumber :=
  mathRound_isNumber _ (mathPow_isNumber E _ x)

theorem isBinary64_ten_pow (n : ℕ) (hn : n ≤ 22) : IsBinary64 ((10 : ℚ) ^ n) := by
  refine ⟨5 ^ n, (n : ℤ), ?_, by omega, by omega, ?_⟩
  · calc 5 ^ n ≤ 5 ^ 22 := Nat.pow_le_pow_right (by norm_num) hn
      _ < 2 ^ 53 := by norm_num
  · have h10 : (0 : ℚ) < 10 ^ n := by positivity
    rw [abs_of_pos h10, zpow_natCast]
    push_cast
    rw [← mul_pow]
    norm_num

theorem mathRound_finite (q : ℚ) :
    mathRound (.finite q) = .finite ((⌊q + 1 / 2⌋ : ℤ) : ℚ) := rfl

theorem abs_floor_add_half_sub_le (q : ℚ) : |((⌊q + 1 / 2⌋ : ℤ) : ℚ) - q| ≤ 1 / 2 := by
  have h1 := Int.floor_le (q + 1 / 2)
  have h2 := Int.lt_floor_add_one (q + 1 / 2)
  rw [abs_le]
  constructor <;> linarith

theorem floor_add_half_eq (q : ℚ) (k : ℤ) (h1 : (k : ℚ) - 1 / 2 ≤ q) (h2 : q < k + 1 / 2) :
    ⌊q + 1 / 2⌋ = k := by
  rw [Int.floor_eq_iff]
  constructor <;> linarith

theorem prettify_of_pow_finite (E : Engine) (x : JSNumber) (q : ℚ)
    (h : mathPow E (.finite 10) x = .finite q) :
    prettify (jsMath E) x = .finite ((⌊q + 1 / 2⌋ : ℤ) : ℚ) := by
  show mathRound (mathPow E (.finite 10) x) = _
  rw [h, mathRound_finite]

theorem mathPow_zero (E : Engine) (b : JSNumber) : mathPow E b (.finite 0) = .finite 1 := by
  simp [mathPow]

theorem le_mathRound (a b : JSNumber) (h : a.le b = true) :
    (mathRound a).le (mathRound b) = true := by
  cases a <;> cases b <;> simp_all [JSNumber.le, mathRound]
  exact Int.floor_mono (by linarith)

theorem samplePow_mono (a b : ℚ) (h : a ≤ b) : samplePow a ≤ samplePow b := by
  unfold samplePow
  split_ifs <;> first | (norm_num; done) | (exfalso; linarith)

theorem samplePow_nonneg (a : ℚ) : 0 ≤ samplePow a := by
  unfold samplePow
  split_ifs <;> norm_num

theorem mathPow_sample_finite (q : ℚ) :
    mathPow sampleEngine (.finite 10) (.finite q) = .finite (samplePow q) := by
  unfold mathPow
  by_cases hq : q = 0
  · subst hq; norm_num [samplePow]
  · simp only [hq, if_false]; rfl

theorem mathPow_sample_mono (x y : JSNumber) (h : x.le y = true) :
    (mathPow sampleEngine (.finite 10) x).le (mathPow sampleEngine (.finite 10) y) = true := by
  cases x with
  | nan => simp [JSNumber.le] at h
  | posInf =>
    cases y with
    | posInf => norm_num [mathPow, JSNumber.le]
    | nan => simp [JSNumber.le] at h
    | negInf => simp [JSNumber.le] at h
    | finite b => simp [JSNumber.le] at h
  | negInf =>
    cases y with
    | nan => simp [JSNumber.le] at h
    | posInf => norm_num [mathPow, JSNumber.le]
    | negInf => norm_num [mathPow, JSNumber.le]
    | finite b =>
      rw [mathPow_sample_finite]
      have := samplePow_nonneg b
      norm_num [mathPow, JSNumber.le, this]
  | finite a =>
    cases y with
    | nan => simp [JSNumber.le] at h
    | negInf => simp [JSNumber.le] at h
    | posInf =>
      rw [mathPow_sample_finite]
      norm_num [mathPow, JSNumber.le]
    | finite b =>
      rw [mathPow_sample_finite, mathPow_sample_finite]
      simp only [JSNumber.le, decide_eq_true_eq] at h ⊢
      exact samplePow_mono a b h

theorem samplePow_one : samplePow 1 = 10 := by norm_num [samplePow]

theorem samplePow_two : samplePow 2 = 100 := by norm_num [samplePow]

theorem samplePow_five_halves : samplePow (5 / 2) = 5563137692178265 / 17592186044416 := by
  norm_num [samplePow]

theorem samplePow_neg_one : samplePow (-1) = 3602879701896397 / 36028797018963968 := by
  norm_num [samplePow]

theorem samplePow_neg_two : samplePow (-2) = 0 := by norm_num [samplePow]

/-! ## The claims -/

/-- C1: whatever inline style `st` the busy indicator had, after the handler of
the "draw animation" click and after the handler of the "draw markers" click
the indicator has visibility `visible` and width `100%`; and the two handlers
return the same page on every page. -/
theorem click_handlers_show_indicator (p : Page Num) (st : Style)
    (h : p.elements "#busy-loadingGif" = some st) :
    (indicator (onDrawAnimationClick p) "visibility" = some "visible"
      ∧ indicator (onDrawAnimationClick p) "width" = some "100%")
    ∧ (indicator (onDrawMarkersClick p) "visibility" = some "visible"
      ∧ indicator (onDrawMarkersClick p) "width" = some "100%")
    ∧ ∀ q : Page Num, onDrawAnimationClick q = onDrawMarkersClick q :=
  ⟨shown_setBoth p st h, shown_setBoth p st h, fun _ => rfl⟩

/-- Witness of C1 on a page whose indicator is hidden at zero width. -/
theorem click_handlers_show_indicator_witness :
    indicator pageHidden "visibility" = some "hidden"
    ∧ indicator (onDrawAnimationClick pageHidden) "visibility" = some "visible"
    ∧ indicator (onDrawAnimationClick pageHidden) "width" = some "100%"
    ∧ indicator (onDrawMarkersClick pageHidden) "visibility" = some "visible"
    ∧ indicator (onDrawMarkersClick pageHidden) "width" = some "100%" :=
  have h := click_handlers_show_indicator pageHidden _ rfl
  ⟨by simp [indicator, pageHidden], h.1.1, h.1.2, h.2.1.1, h.2.1.2⟩

/-- C2: whatever inline style `st` the busy indicator had, after the
`shiny:idle` handler the indicator has visibility `hidden` and width `0%`. -/
theorem idle_handler_hides_indicator (p : Page Num) (st : Style)
    (h : p.elements "#busy-loadingGif" = some st) :
    indicator (onShinyIdle p) "visibility" = some "hidden"
    ∧ indicator (onShinyIdle p) "width" = some "0%" :=
  hidden_setBoth p st h

/-- Witness of C2 on a page whose indicator has no inline style yet. -/
theorem idle_handler_hides_indicator_witness :
    indicator pageNoSlider "visibility" = none
    ∧ indicator (onShinyIdle pageNoSlider) "visibility" = some "hidden"
    ∧ indicator (onShinyIdle pageNoSlider) "width" = some "0%" :=
  have h := idle_handler_hides_indicator pageNoSlider _ rfl
  ⟨by simp [indicator, pageNoSlider], h.1, h.2⟩

/-- C3 (amended): on every engine the label is `Math.round` of the number
`Math.pow( 10, x )` the engine computes. When that number is a finite `q` the
label is the integer `⌊q + 1/2⌋`, within 1/2 of `q`; NaN and the infinities are
returned as they are. The label of 0 is 1. For a non-negative integer `n` the
label is exactly `10^n` when the engine's power is exactly `10^n`; `10^n` is a
binary64 for `n ≤ 22`, and for `n ≥ 23` the label differs from `10^n`. The
label of 2.5 is 316 when the engine's power lies in [315.5, 316.5), and the
label of -1 is 0 when it lies in [-0.5, 0.5). -/
theorem prettify_rounds_computed_power (E : Engine) :
    (∀ (x : JSNumber) (q : ℚ), mathPow E (.finite 10) x = .finite q →
        prettify (jsMath E) x = .finite ((⌊q + 1 / 2⌋ : ℤ) : ℚ)
        ∧ |((⌊q + 1 / 2⌋ : ℤ) : ℚ) - q| ≤ 1 / 2)
    ∧ (∀ x : JSNumber, mathPow E (.finite 10) x = .nan → prettify (jsMath E) x = .nan)
    ∧ (∀ x : JSNumber, mathPow E (.finite 10) x = .posInf → prettify (jsMath E) x = .posInf)
    ∧ (∀ x : JSNumber, mathPow E (.finite 10) x = .negInf → prettify (jsMath E) x = .negInf)
    ∧ prettify (jsMath E) (.finite 0) = .finite 1
    ∧ (∀ n : ℕ, mathPow E (.finite 10) (.finite n) = .finite (10 ^ n) →
        prettify (jsMath E) (.finite n) = .finite (10 ^ n))
    ∧ (∀ n : ℕ, n ≤ 22 → IsBinary64 (10 ^ n))
    ∧ (∀ n : ℕ, 23 ≤ n → prettify (jsMath E) (.finite n) ≠ .finite (10 ^ n))
    ∧ (∀ q : ℚ, mathPow E (.finite 10) (.finite (5 / 2)) = .finite q →
        631 / 2 ≤ q → q < 633 / 2 → prettify (jsMath E) (.finite (5 / 2)) = .finite 316)
    ∧ (∀ q : ℚ, mathPow E (.finite 10) (.finite (-1)) = .finite q →
        -(1 / 2) ≤ q → q < 1 / 2 → prettify (jsMath E) (.finite (-1)) = .finite 0) := by
  refine ⟨fun x q h => ⟨prettify_of_pow_finite E x q h, abs_floor_add_half_sub_le q⟩,
    ?_, ?_, ?_, ?_, ?_, isBinary64_ten_pow, ?_, ?_, ?_⟩
  · intro x h
    show mathRound (mathPow E (.finite 10) x) = _
    rw [h]; rfl
  · intro x h
    show mathRound (mathPow E (.finite 10) x) = _
    rw [h]; rfl
  · intro x h
    show mathRound (mathPow E (.finite 10) x) = _
    rw [h]; rfl
  · rw [prettify_of_pow_finite E _ 1 (mathPow_zero E _), floor_add_half_eq 1 1 (by norm_num)
      (by norm_num)]
    norm_num
  · intro n h
    rw [prettify_of_pow_finite E _ _ h]
    have : ((10 : ℚ) ^ n) = (((10 ^ n : ℕ) : ℤ) : ℚ) := by push_cast; rfl
    rw [this, floor_intCast_add_half]
  · intro n hn h
    have hnum := prettify_isNumber E (.finite n)
    rw [h] at hnum
    exact not_isBinary64_ten_pow n hn hnum
  · intro q h h1 h2
    rw [prettify_of_pow_finite E _ q h, floor_add_half_eq q 316 (by norm_num; linarith)
      (by norm_num; linarith)]
    norm_num
  · intro q h h1 h2
    rw [prettify_of_pow_finite E _ q h, floor_add_half_eq q 0 (by norm_num; linarith)
      (by norm_num; linarith)]
    norm_num

/-- Witness of C3 on the sample engine: the labels of 0, 1, 2, 2.5 and -1. -/
theorem prettify_rounds_computed_power_witness :
    prettify (jsMath sampleEngine) (.finite 0) = .finite 1
    ∧ prettify (jsMath sampleEngine) (.finite 1) = .finite 10
    ∧ prettify (jsMath sampleEngine) (.finite 2) = .finite 100
    ∧ prettify (jsMath sampleEngine) (.finite (5 / 2)) = .finite 316
    ∧ prettify (jsMath sampleEngine) (.finite (-1)) = .finite 0 :=
  have h := prettify_rounds_computed_power sampleEngine
  ⟨h.2.2.2.2.1,
    by simpa using h.2.2.2.2.2.1 1 (by
      rw [Nat.cast_one, mathPow_sample_finite, samplePow_one]; norm_num),
    by simpa using h.2.2.2.2.2.1 2 (by
      rw [Nat.cast_ofNat, mathPow_sample_finite, samplePow_two]; norm_num),
    h.2.2.2.2.2.2.2.2.1 _ (by rw [mathPow_sample_finite, samplePow_five_halves])
      (by norm_num) (by norm_num),
    h.2.2.2.2.2.2.2.2.2 _ (by rw [mathPow_sample_finite, samplePow_neg_one])
      (by norm_num) (by norm_num)⟩

/-- Counterexample to C3 as stated: on no engine is the label of 23 the
integer 10^23, which no binary64 holds. -/
theorem prettify_23_not_exact :
    ¬ ∃ E : Engine, prettify (jsMath E) (.finite 23) = .finite (10 ^ 23) := by
  rintro ⟨E, h⟩
  have hnum := prettify_isNumber E (.finite 23)
  rw [h] at hnum
  exact not_isBinary64_ten_pow 23 (le_refl _) hnum

/-- C5: from a page whose indicator is hidden at zero width, after any finite
sequence of events the indicator is shown (visible, 100%) or hidden (hidden,
0%), never both, and never in a mixed state (visible with 0%, or hidden with
100%). -/
theorem indicator_in_one_configuration (p : Page Num) (es : List Event) (h0 : Hidden p) :
    (Shown (dispatchAll es p) ∨ Hidden (dispatchAll es p))
    ∧ ¬ (Shown (dispatchAll es p) ∧ Hidden (dispatchAll es p))
    ∧ ¬ (indicator (dispatchAll es p) "visibility" = some "visible"
          ∧ indicator (dispatchAll es p) "width" = some "0%")
    ∧ ¬ (indicator (dispatchAll es p) "visibility" = some "hidden"
          ∧ indicator (dispatchAll es p) "width" = some "100%") := by
  have hcfg := dispatchAll_keeps_configuration es p (Or.inr h0)
  refine ⟨hcfg, not_shown_and_hidden _, ?_, ?_⟩
  · rintro ⟨hv, hw⟩
    rcases hcfg with hc | hc
    · rw [hc.2] at hw; simp at hw
    · rw [hc.1] at hv; simp at hv
  · rintro ⟨hv, hw⟩
    rcases hcfg with hc | hc
    · rw [hc.1] at hv; simp at hv
    · rw [hc.2] at hw; simp at hw

/-- Witness of C5: the loaded page, a click, the idle signal, then a click on
the other button. -/
theorem indicator_in_one_configuration_witness :
    Hidden pageHidden
    ∧ (Shown (dispatchAll [clickDrawAnimation, shinyIdle, clickDrawMarkers] pageHidden)
        ∨ Hidden (dispatchAll [clickDrawAnimation, shinyIdle, clickDrawMarkers] pageHidden)) :=
  have h0 : Hidden pageHidden := by simp [Hidden, indicator, pageHidden]
  ⟨h0, (indicator_in_one_configuration pageHidden
    [clickDrawAnimation, shinyIdle, clickDrawMarkers] h0).1⟩

/-- C6: on a page whose registered bindings are all the script's and whose
indicator is shown, every finite sequence of clicks on the two buttons leaves
the indicator visible at 100% width, and so does every finite sequence of
events none of which has type `shiny:idle`, wherever they are triggered; an
event after which the indicator is no longer shown can only have type
`shiny:idle`. -/
theorem shown_until_idle (p : Page Num) (hreg : FromScript p) (hp : Shown p) :
    (∀ es : List Event, (∀ e ∈ es, e = clickDrawAnimation ∨ e = clickDrawMarkers) →
        Shown (dispatchAll es p))
    ∧ (∀ es : List Event, (∀ e ∈ es, e.type ≠ "shiny:idle") → Shown (dispatchAll es p))
    ∧ (∀ e : Event, ¬ Shown (dispatch e p) → e.type = "shiny:idle") := by
  refine ⟨?_, ?_, ?_⟩
  · intro es hes
    refine dispatchAll_shown_of_ne es p hreg (fun e he => ?_) hp
    rcases hes e he with rfl | rfl <;> decide
  · intro es hes
    exact dispatchAll_shown_of_ne es p hreg hes hp
  · intro e hne
    by_contra he
    exact hne (dispatch_shown_of_ne e p hreg he hp)

/-- Witness of C6: the loaded page after one click, then three more clicks,
and then a click triggered on `body`. -/
theorem shown_until_idle_witness :
    FromScript (dispatch clickDrawAnimation pageHidden)
    ∧ Shown (dispatch clickDrawAnimation pageHidden)
    ∧ Shown (dispatchAll [clickDrawMarkers, clickDrawAnimation, clickDrawMarkers]
        (dispatch clickDrawAnimation pageHidden))
    ∧ Shown (dispatchAll [⟨.element "body", "click"⟩]
        (dispatch clickDrawAnimation pageHidden)) :=
  have hreg : FromScript (dispatch clickDrawAnimation pageHidden) :=
    fromScript_dispatch _ _ (fun _ hb => hb)
  have hp : Shown (dispatch clickDrawAnimation pageHidden) := by
    rw [dispatch_clickDrawAnimation _ rfl]
    exact shown_setBoth pageHidden _ rfl
  ⟨hreg, hp, (shown_until_idle _ hreg hp).1 _ (by decide),
    (shown_until_idle _ hreg hp).2.1 _ (by decide)⟩

/-- C7: each click handler applied twice gives the same page as applied once,
either click handler after the other gives the same page as one alone, and
delivering any event twice in a row gives the same page as delivering it once;
with the script's bindings registered, a click on one button after a click on
the other gives the same page as either click alone. -/
theorem click_handlers_idempotent (p : Page Num) :
    onDrawAnimationClick (onDrawAnimationClick p) = onDrawAnimationClick p
    ∧ onDrawMarkersClick (onDrawMarkersClick p) = onDrawMarkersClick p
    ∧ onDrawMarkersClick (onDrawAnimationClick p) = onDrawAnimationClick p
    ∧ onDrawAnimationClick (onDrawMarkersClick p) = onDrawMarkersClick p
    ∧ (∀ e : Event, dispatch e (dispatch e p) = dispatch e p)
    ∧ (p.bindings = scriptBindings →
        dispatch clickDrawMarkers (dispatch clickDrawAnimation p) = dispatch clickDrawAnimation p
        ∧ dispatch clickDrawAnimation (dispatch clickDrawMarkers p) = dispatch clickDrawMarkers p
        ∧ dispatch clickDrawAnimation p = dispatch clickDrawMarkers p) := by
  refine ⟨setBoth_setBoth _ _ _ _ p, setBoth_setBoth _ _ _ _ p, setBoth_setBoth _ _ _ _ p,
    setBoth_setBoth _ _ _ _ p, ?_, ?_⟩
  · intro e
    show runHandlers (handlersFor (propagationPath (dispatch e p) e.target) e.type
      (dispatch e p).bindings) (dispatch e p) = dispatch e p
    rw [dispatch_bindings, propagationPath_congr p (dispatch e p) (dispatch_ancestors e p)]
    exact runHandlers_idem _ p
  · intro hreg
    have hreg2 : ∀ e : Event, (dispatch e p).bindings = scriptBindings := fun e => by
      rw [dispatch_bindings, hreg]
    refine ⟨?_, ?_, ?_⟩
    · rw [dispatch_clickDrawMarkers _ (hreg2 _), dispatch_clickDrawAnimation _ hreg]
      exact setBoth_setBoth _ _ _ _ p
    · rw [dispatch_clickDrawAnimation _ (hreg2 _), dispatch_clickDrawMarkers _ hreg]
      exact setBoth_setBoth _ _ _ _ p
    · rw [dispatch_clickDrawAnimation _ hreg, dispatch_clickDrawMarkers _ hreg]

/-- Witness of C7 on the loaded page: the two clicks in a row equal one. -/
theorem click_handlers_idempotent_witness :
    pageHidden.bindings = scriptBindings
    ∧ dispatch clickDrawMarkers (dispatch clickDrawAnimation pageHidden)
        = dispatch clickDrawAnimation pageHidden
    ∧ dispatch clickDrawAnimation (dispatch clickDrawAnimation pageHidden)
        = dispatch clickDrawAnimation pageHidden :=
  ⟨rfl, ((click_handlers_idempotent pageHidden).2.2.2.2.2 rfl).1,
    (click_handlers_idempotent pageHidden).2.2.2.2.1 clickDrawAnimation⟩

/-- C8: on a page with the script's bindings registered and the indicator
present, a click on "draw animation" leaves the indicator visible at 100%
width, the idle signal after it leaves the indicator hidden at 0% width, and
the idle signal delivered while the indicator is hidden at 0% width returns
the page unchanged. -/
theorem click_then_idle (p : Page Num) (st : Style) (hreg : p.bindings = scriptBindings)
    (hbusy : p.elements "#busy-loadingGif" = some st) :
    Shown (dispatch clickDrawAnimation p)
    ∧ Hidden (dispatch shinyIdle (dispatch clickDrawAnimation p))
    ∧ Hidden (dispatchAll [clickDrawAnimation, shinyIdle] p)
    ∧ (Hidden p → dispatch shinyIdle p = p) := by
  have hshown : Shown (dispatch clickDrawAnimation p) := by
    rw [dispatch_clickDrawAnimation _ hreg]
    exact shown_setBoth p st hbusy
  have hhidden : Hidden (dispatch shinyIdle (dispatch clickDrawAnimation p)) := by
    obtain ⟨st2, hst2⟩ := exists_of_indicator _ _ _ hshown.1
    rw [dispatch_shinyIdle _ (by rw [dispatch_bindings, hreg])]
    exact hidden_setBoth _ st2 hst2
  refine ⟨hshown, hhidden, hhidden, ?_⟩
  intro hh
  rw [dispatch_shinyIdle _ hreg]
  exact setBoth_of_indicator _ _ p hh.1 hh.2

/-- Witness of C8 on the loaded page with the indicator hidden. -/
theorem click_then_idle_witness :
    pageHidden.bindings = scriptBindings
    ∧ Shown (dispatch clickDrawAnimation pageHidden)
    ∧ Hidden (dispatch shinyIdle (dispatch clickDrawAnimation pageHidden))
    ∧ dispatch shinyIdle pageHidden = pageHidden :=
  have h := click_then_idle pageHidden _ rfl rfl
  ⟨rfl, h.1, h.2.1, h.2.2.2 (by simp [Hidden, indicator, pageHidden])⟩

/-- C4: when `data( 'ionRangeSlider' )` finds no widget on
`#leaflet-sliderReturnLevel`, the script ends with a `TypeError` and installs
nothing on any widget, yet its bindings are registered: with both buttons
present the run adds exactly the three bindings of the script, and any run on
a page with the same prior bindings and the same buttons where the widget is
present completes without error and ends with the same registered bindings. -/
theorem script_without_slider_registers_bindings (M : JSMath Num) (p : Page Num)
    (hslider : jqData "#leaflet-sliderReturnLevel" "ionRangeSlider" p = none) :
    (script M p).error = some JSError.typeError
    ∧ (script M p).page.widgets = p.widgets
    ∧ (∀ st1 st2 : Style, p.elements "#animation-buttonDrawAnimation" = some st1 →
        p.elements "#leaflet-buttonDrawMarkers" = some st2 →
        (script M p).page.bindings = p.bindings ++ scriptBindings)
    ∧ (∀ (q : Page Num) (w : Options Num), q.bindings = p.bindings →
        (q.elements "#animation-buttonDrawAnimation").isSome
          = (p.elements "#animation-buttonDrawAnimation").isSome →
        (q.elements "#leaflet-buttonDrawMarkers").isSome
          = (p.elements "#leaflet-buttonDrawMarkers").isSome →
        jqData "#leaflet-sliderReturnLevel" "ionRangeSlider" q = some w →
        (script M q).error = none
        ∧ (script M q).page.bindings = (script M p).page.bindings) := by
  have hfail : script M p = .abrupt .typeError (registerBindings p) := by
    unfold script
    exact updateSlider_of_none M _ (by rw [jqData_registerBindings]; exact hslider)
  refine ⟨?_, ?_, ?_, ?_⟩
  · rw [hfail]; rfl
  · rw [hfail]; exact registerBindings_widgets p
  · intro st1 st2 h1 h2
    rw [hfail]
    show (registerBindings p).bindings = _
    rw [registerBindings_bindings, h1, h2]
    simp [scriptBindings]
  · intro q w hb h1 h2 hw
    constructor
    · unfold script
      rw [updateSlider_error, jqData_registerBindings, hw]
      rfl
    · rw [hfail]
      unfold script
      rw [updateSlider_page_bindings]
      show (registerBindings q).bindings = (registerBindings p).bindings
      rw [registerBindings_bindings, registerBindings_bindings, hb, h1, h2]

/-- Witness of C4: the sample page without a slider against the sample page
with one. Both runs end with the three bindings; only the first fails. -/
theorem script_without_slider_registers_bindings_witness :
    jqData "#leaflet-sliderReturnLevel" "ionRangeSlider" pageNoSlider = none
    ∧ (script (jsMath sampleEngine) pageNoSlider).error = some JSError.typeError
    ∧ (script (jsMath sampleEngine) pageNoSlider).page.bindings = scriptBindings
    ∧ (script (jsMath sampleEngine) pageWithSlider).error = none
    ∧ (script (jsMath sampleEngine) pageWithSlider).page.bindings = scriptBindings :=
  have h := script_without_slider_registers_bindings (jsMath sampleEngine) pageNoSlider rfl
  have hb : (script (jsMath sampleEngine) pageNoSlider).page.bindings = scriptBindings :=
    h.2.2.1 _ _ rfl rfl
  have hq := h.2.2.2 pageWithSlider _ rfl rfl rfl rfl
  ⟨rfl, h.1, hb, hq.1, hq.2.trans hb⟩

/-- C9: every handler leaves the widgets, the registered bindings and every
element other than the busy indicator as they were, keeps the indicator
present or absent as it was, keeps every style property of the indicator
other than `visibility` and `width`, and keeps the element tree; the slider
update leaves all elements (so the indicator's style) and the bindings as they
were, keeps every widget other than the slider's, keeps the slider widget
present or absent as it was, keeps every option of it other than `prettify`,
when it finds the widget it sets `prettify` to the script's function, and it
keeps the element tree. -/
theorem effects_are_framed (M : JSMath Num) (p : Page Num) :
    (∀ h : Handler,
        (h.run p).widgets = p.widgets
        ∧ (h.run p).bindings = p.bindings
        ∧ (∀ s : String, s ≠ "#busy-loadingGif" → (h.run p).elements s = p.elements s)
        ∧ ((h.run p).elements "#busy-loadingGif").isSome
            = (p.elements "#busy-loadingGif").isSome
        ∧ (∀ k : String, k ≠ "visibility" → k ≠ "width" →
            indicator (h.run p) k = indicator p k)
        ∧ (h.run p).ancestors = p.ancestors)
    ∧ (updateSlider M p).page.elements = p.elements
    ∧ (updateSlider M p).page.bindings = p.bindings
    ∧ (∀ s k : String, ¬ (s = "#leaflet-sliderReturnLevel" ∧ k = "ionRangeSlider") →
        (updateSlider M p).page.widgets s k = p.widgets s k)
    ∧ ((updateSlider M p).page.widgets "#leaflet-sliderReturnLevel" "ionRangeSlider").isSome
        = (p.widgets "#leaflet-sliderReturnLevel" "ionRangeSlider").isSome
    ∧ (∀ name : String, name ≠ "prettify" →
        widgetOption (updateSlider M p).page "#leaflet-sliderReturnLevel" "ionRangeSlider" name
          = widgetOption p "#leaflet-sliderReturnLevel" "ionRangeSlider" name)
    ∧ (∀ w : Options Num, jqData "#leaflet-sliderReturnLevel" "ionRangeSlider" p = some w →
        widgetOption (updateSlider M p).page "#leaflet-sliderReturnLevel" "ionRangeSlider"
            "prettify" = some (OptVal.fn (prettify M)))
    ∧ (updateSlider M p).page.ancestors = p.ancestors := by
  refine ⟨fun h => ⟨run_widgets h p, run_bindings h p, ?_, ?_, ?_, run_ancestors h p⟩,
    updateSlider_page_elements M p, updateSlider_page_bindings M p, ?_, ?_, ?_, ?_, ?_⟩
  · intro s hs
    cases h <;> exact setBoth_elements_other _ _ s p hs
  · cases h <;> exact setBoth_elements_isSome _ _ p
  · intro k hv hw
    have key : ∀ v w : String, indicator (setBoth v w p) k = indicator p k := fun v w => by
      rw [indicator_setBoth]; simp [hv, hw]
    cases h <;> exact key _ _
  · intro s k hsk
    unfold updateSlider
    cases jqData "#leaflet-sliderReturnLevel" "ionRangeSlider" p with
    | none => rfl
    | some w => simp [Completion.page, widgetUpdate, hsk]
  · unfold updateSlider
    cases jqData "#leaflet-sliderReturnLevel" "ionRangeSlider" p with
    | none => rfl
    | some w =>
      simp only [Completion.page, widgetUpdate]
      cases p.widgets "#leaflet-sliderReturnLevel" "ionRangeSlider" <;> simp
  · intro name hname
    unfold updateSlider widgetOption
    cases jqData "#leaflet-sliderReturnLevel" "ionRangeSlider" p with
    | none => rfl
    | some w =>
      simp only [Completion.page, widgetUpdate]
      cases p.widgets "#leaflet-sliderReturnLevel" "ionRangeSlider" with
      | none => simp
      | some o => simp [mergeOptions, updateArgument, hname]
  · intro w hw
    unfold updateSlider widgetOption
    rw [hw]
    have hw2 : p.widgets "#leaflet-sliderReturnLevel" "ionRangeSlider" = some w := by
      unfold jqData at hw
      cases hel : p.elements "#leaflet-sliderReturnLevel" with
      | none => rw [hel] at hw; simp at hw
      | some st => rw [hel] at hw; exact hw
    simp [Completion.page, widgetUpdate, hw2, mergeOptions, updateArgument]
  · unfold updateSlider
    cases jqData "#leaflet-sliderReturnLevel" "ionRangeSlider" p <;> rfl

/-- Witness of C9 on the sample page with a slider: after the update the
`grid` option is as before, `prettify` is the script's function, and the
idle handler leaves the updated widget alone. -/
theorem effects_are_framed_witness :
    widgetOption (updateSlider (jsMath sampleEngine) pageWithSlider).page
        "#leaflet-sliderReturnLevel" "ionRangeSlider" "grid"
      = widgetOption pageWithSlider "#leaflet-sliderReturnLevel" "ionRangeSlider" "grid"
    ∧ widgetOption (updateSlider (jsMath sampleEngine) pageWithSlider).page
        "#leaflet-sliderReturnLevel" "ionRangeSlider" "prettify"
      = some (OptVal.fn (prettify (jsMath sampleEngine)))
    ∧ (onShinyIdle (updateSlider (jsMath sampleEngine) pageWithSlider).page).widgets
      = (updateSlider (jsMath sampleEngine) pageWithSlider).page.widgets :=
  have h := effects_are_framed (jsMath sampleEngine) pageWithSlider
  ⟨h.2.2.2.2.2.1 "grid" (by decide), h.2.2.2.2.2.2.1 _ rfl,
    (effects_are_framed (jsMath sampleEngine)
      (updateSlider (jsMath sampleEngine) pageWithSlider).page).1 Handler.shinyIdle |>.1⟩

/-- C10 (amended): on every engine the label is monotone and never negative
relative to the power the engine computes: if `Math.pow( 10, x ) <=
Math.pow( 10, y )` then `prettify( x ) <= prettify( y )`, and if
`Math.pow( 10, x ) >= 0` then `prettify( x ) >= 0`; so where the engine's
power of ten is monotone, or non-negative on the exponents other than NaN, so
is the label. The label of NaN is NaN, which compares false with every
number. Every exponent whose computed power lies in [-0.5, 0.5) has the label
0, among them `-Infinity` on every engine. -/
theorem prettify_monotone_in_computed_power (E : Engine) :
    (∀ x y : JSNumber,
        (mathPow E (.finite 10) x).le (mathPow E (.finite 10) y) = true →
        (prettify (jsMath E) x).le (prettify (jsMath E) y) = true)
    ∧ (∀ x : JSNumber, (JSNumber.finite 0).le (mathPow E (.finite 10) x) = true →
        (JSNumber.finite 0).le (prettify (jsMath E) x) = true)
    ∧ ((∀ x y : JSNumber, x.le y = true →
          (mathPow E (.finite 10) x).le (mathPow E (.finite 10) y) = true) →
        ∀ x y : JSNumber, x.le y = true →
          (prettify (jsMath E) x).le (prettify (jsMath E) y) = true)
    ∧ ((∀ x : JSNumber, x ≠ .nan →
          (JSNumber.finite 0).le (mathPow E (.finite 10) x) = true) →
        ∀ x : JSNumber, x ≠ .nan → (JSNumber.finite 0).le (prettify (jsMath E) x) = true)
    ∧ prettify (jsMath E) .nan = .nan
    ∧ (∀ y : JSNumber, JSNumber.le .nan y = false ∧ JSNumber.le y .nan = false)
    ∧ (∀ (x : JSNumber) (q : ℚ), mathPow E (.finite 10) x = .finite q →
        -(1 / 2) ≤ q → q < 1 / 2 → prettify (jsMath E) x = .finite 0)
    ∧ prettify (jsMath E) .negInf = .finite 0 := by
  have hmono : ∀ x y : JSNumber,
      (mathPow E (.finite 10) x).le (mathPow E (.finite 10) y) = true →
      (prettify (jsMath E) x).le (prettify (jsMath E) y) = true :=
    fun x y h => le_mathRound _ _ h
  have hnonneg : ∀ x : JSNumber, (JSNumber.finite 0).le (mathPow E (.finite 10) x) = true →
      (JSNumber.finite 0).le (prettify (jsMath E) x) = true := by
    intro x h
    have h2 := le_mathRound _ _ h
    have h0 : mathRound (.finite 0) = .finite 0 := by
      rw [mathRound_finite, floor_add_half_eq 0 0 (by norm_num) (by norm_num)]; norm_num
    rw [h0] at h2
    exact h2
  have hzero : ∀ (x : JSNumber) (q : ℚ), mathPow E (.finite 10) x = .finite q →
      -(1 / 2) ≤ q → q < 1 / 2 → prettify (jsMath E) x = .finite 0 := by
    intro x q h h1 h2
    rw [prettify_of_pow_finite E _ q h, floor_add_half_eq q 0 (by norm_num; linarith)
      (by norm_num; linarith)]
    norm_num
  refine ⟨hmono, hnonneg, fun hp x y hxy => hmono x y (hp x y hxy),
    fun hp x hx => hnonneg x (hp x hx), rfl, ?_, hzero, ?_⟩
  · intro y
    cases y <;> simp [JSNumber.le]
  · exact hzero .negInf 0 (by norm_num [mathPow]) (by norm_num) (by norm_num)

/-- Witness of C10 on the sample engine, whose power of ten is monotone: the
label of -2 is at most the label of 2.5, and -2 and -1 share the label 0. -/
theorem prettify_monotone_in_computed_power_witness :
    (prettify (jsMath sampleEngine) (.finite (-2))).le
        (prettify (jsMath sampleEngine) (.finite (5 / 2))) = true
    ∧ prettify (jsMath sampleEngine) (.finite (-2)) = .finite 0
    ∧ prettify (jsMath sampleEngine) (.finite (-1)) = .finite 0 :=
  have h := prettify_monotone_in_computed_power sampleEngine
  ⟨h.2.2.1 mathPow_sample_mono _ _ (by norm_num [JSNumber.le]),
    h.2.2.2.2.2.2.1 _ _ (by rw [mathPow_sample_finite, samplePow_neg_two])
      (by norm_num) (by norm_num),
    h.2.2.2.2.2.2.1 _ _ (by rw [mathPow_sample_finite, samplePow_neg_one])
      (by norm_num) (by norm_num)⟩

/-- Counterexample to C10 as stated: on no engine is the label of NaN at
least 0. -/
theorem prettify_nan_not_nonneg :
    ¬ ∃ E : Engine, (JSNumber.finite 0).le (prettify (jsMath E) .nan) = true := by
  rintro ⟨E, h⟩
  have hn : prettify (jsMath E) .nan = .nan := rfl
  rw [hn] at h
  simp [JSNumber.le] at h

end Climex
